import Mathlib

/-!
Verification of the interactive filterable-list picker of `manpat/git-utils`.

The embedding follows `src/ui.rs` (the `FilterableList`/`InlineViewport` picker)
and `src/main.rs` (the older `list_prompt` duplicate of the same loop).
Rust `usize` arithmetic that is saturating (`saturating_sub`) is modelled by
truncated natural subtraction, which agrees with it exactly; places where the
Rust code can panic (`String::remove`, `Vec::remove` out of bounds) are
modelled explicitly with `Except`/panic outcomes.

The fuzzy matcher (`SkimMatcherV2::fuzzy_match`, an external crate, not part of
the sources of this repository) is kept abstract: every definition that needs it
takes a `matcher : String → String → Option Int` argument, exactly the shape of
`fuzzy_match(&text, &query) -> Option<i64>`.
-/

namespace GitUtils

/-- Structure `FilteredItem` from `src/ui.rs` lines 70–75 (same struct again in
`src/main.rs` lines 311–316).  The `score` field stores the *negated* matcher
score (`score: -score` at `ui.rs:99`), so that the derived ascending `Ord`
sorts by descending matcher score.  The derived Rust `Ord` is lexicographic in
declaration order: `score`, then `original_index`, then `text`. -/
structure FilteredItem where
  score : Int
  original_index : Nat
  text : String
deriving DecidableEq, Repr

/-- The `derive(Ord)` lexicographic `≤` on `FilteredItem`:
first `score`, then `original_index`, then `text`. -/
def itemLE (a b : FilteredItem) : Bool :=
  if a.score < b.score then true
  else if b.score < a.score then false
  else if a.original_index < b.original_index then true
  else if b.original_index < a.original_index then false
  else decide (a.text ≤ b.text)

theorem itemLE_iff (a b : FilteredItem) : itemLE a b = true ↔
    (a.score < b.score ∨
      (a.score = b.score ∧
        (a.original_index < b.original_index ∨
          (a.original_index = b.original_index ∧ a.text ≤ b.text)))) := by
  simp only [itemLE]
  split_ifs with h1 h2 h3 h4
  · simpa using Or.inl h1
  · simp only [false_iff]
    rintro (h | ⟨e, -⟩) <;> omega
  · simp only [true_iff]
    exact Or.inr ⟨le_antisymm (not_lt.1 h2) (not_lt.1 h1), Or.inl h3⟩
  · simp only [false_iff]
    rintro (h | ⟨e, h' | ⟨f, -⟩⟩) <;> omega
  · have e : a.score = b.score := le_antisymm (not_lt.1 h2) (not_lt.1 h1)
    have f : a.original_index = b.original_index := le_antisymm (not_lt.1 h4) (not_lt.1 h3)
    simp [e, f]

theorem itemLE_trans (a b c : FilteredItem)
    (hab : itemLE a b) (hbc : itemLE b c) : itemLE a c := by
  rw [itemLE_iff] at hab hbc ⊢
  rcases hab with h | ⟨e1, h⟩
  · rcases hbc with h' | ⟨e2, _⟩
    · exact Or.inl (h.trans h')
    · exact Or.inl (e2 ▸ h)
  · rcases hbc with h' | ⟨e2, h'⟩
    · exact Or.inl (e1 ▸ h')
    · refine Or.inr ⟨e1.trans e2, ?_⟩
      rcases h with h | ⟨f1, ht⟩
      · rcases h' with h' | ⟨f2, _⟩
        · exact Or.inl (h.trans h')
        · exact Or.inl (f2 ▸ h)
      · rcases h' with h' | ⟨f2, ht'⟩
        · exact Or.inl (f1 ▸ h')
        · exact Or.inr ⟨f1.trans f2, ht.trans ht'⟩

theorem itemLE_total (a b : FilteredItem) : itemLE a b || itemLE b a := by
  rw [Bool.or_eq_true, itemLE_iff, itemLE_iff]
  rcases lt_trichotomy a.score b.score with h | h | h
  · exact Or.inl (Or.inl h)
  · rcases Nat.lt_trichotomy a.original_index b.original_index with h' | h' | h'
    · exact Or.inl (Or.inr ⟨h, Or.inl h'⟩)
    · rcases le_total a.text b.text with ht | ht
      · exact Or.inl (Or.inr ⟨h, Or.inr ⟨h', ht⟩⟩)
      · exact Or.inr (Or.inr ⟨h.symm, Or.inr ⟨h'.symm, ht⟩⟩)
    · exact Or.inr (Or.inr ⟨h.symm, Or.inl h'⟩)
  · exact Or.inr (Or.inl h)

/-- The refilter step (`src/ui.rs` lines 91–107; identically `src/main.rs`
lines 430–444): score every candidate against the query, drop candidates the
matcher rejects, store the negated score together with the original insertion
index, and sort with the derived lexicographic order.  The Rust `Vec::sort` is a
stable sort on `Ord`; `List.mergeSort` with the same total order is a stable
sort and therefore computes the same list. -/
def recompute (matcher : String → String → Option Int)
    (items : List String) (query : String) : List FilteredItem :=
  (items.enum.filterMap fun p =>
      (matcher p.2 query).map fun score =>
        { score := -score, original_index := p.1, text := p.2 }).mergeSort itemLE

/-- Entries of `enumFrom i l` have strictly increasing first components. -/
theorem pairwise_fst_lt_enumFrom {α : Type _} :
    ∀ (i : Nat) (l : List α), (l.enumFrom i).Pairwise (fun a b => a.1 < b.1)
  | _, [] => List.Pairwise.nil
  | i, x :: xs => by
    refine List.Pairwise.cons ?_ (pairwise_fst_lt_enumFrom (i + 1) xs)
    intro b hb
    have := List.le_fst_of_mem_enumFrom hb
    simpa using Nat.lt_of_succ_le this

/-- The unsorted refilter output has strictly increasing `original_index`. -/
theorem pairwise_origIdx_filterMap (matcher : String → String → Option Int)
    (items : List String) (query : String) :
    (items.enum.filterMap fun p =>
        (matcher p.2 query).map fun score =>
          ({ score := -score, original_index := p.1, text := p.2 } : FilteredItem)).Pairwise
      (fun a b => a.original_index < b.original_index) := by
  refine List.Pairwise.filterMap _ ?_ (pairwise_fst_lt_enumFrom 0 items)
  intro a a' hlt b hb b' hb'
  rcases Option.map_eq_some'.1 hb with ⟨s, -, rfl⟩
  rcases Option.map_eq_some'.1 hb' with ⟨s', -, rfl⟩
  exact hlt

/-- C2: for every candidate list and every query, the ranked sequence produced
by the refilter step (`src/ui.rs` lines 91–107) is sorted by descending matcher
score (`-a.score` is the matcher score, since `score` stores its negation) with
ties broken by ascending original insertion index; and the computation is a
pure function of `(candidate list, query)`, so identical inputs produce the
identical ranked order. -/
theorem recompute_ranked_order (matcher : String → String → Option Int)
    (items : List String) (query : String) :
    (recompute matcher items query).Pairwise
      (fun a b => -a.score > -b.score ∨
        (-a.score = -b.score ∧ a.original_index < b.original_index))
    ∧ recompute matcher items query = recompute matcher items query := by
  refine ⟨?_, rfl⟩
  have hsorted :
      (recompute matcher items query).Pairwise (fun a b => itemLE a b) :=
    List.sorted_mergeSort itemLE_trans itemLE_total _
  have hperm :
      List.Perm
        (items.enum.filterMap fun p =>
          (matcher p.2 query).map fun score =>
            ({ score := -score, original_index := p.1, text := p.2 } : FilteredItem))
        (recompute matcher items query) :=
    (List.mergeSort_perm _ itemLE).symm
  have hne : (recompute matcher items query).Pairwise
      (fun a b => a.original_index ≠ b.original_index) :=
    hperm.pairwise
      ((pairwise_origIdx_filterMap matcher items query).imp fun h => Nat.ne_of_lt h)
      (fun h => h.symm)
  refine (hsorted.and hne).imp ?_
  intro a b hab
  obtain ⟨hle, hne'⟩ := hab
  rw [itemLE_iff] at hle
  rcases hle with h | ⟨e, h' | ⟨f, -⟩⟩
  · exact Or.inl (by omega)
  · exact Or.inr ⟨by omega, h'⟩
  · exact absurd f hne'

/-- If the matcher accepts everything against `query` with one and the same
score, the unsorted refilter output is just the enumeration itself. -/
theorem filterMap_all_match (matcher : String → String → Option Int)
    (query : String) (s0 : Int) (hm : ∀ t, matcher t query = some s0)
    (l : List (Nat × String)) :
    (l.filterMap fun p =>
        (matcher p.2 query).map fun score =>
          ({ score := -score, original_index := p.1, text := p.2 } : FilteredItem)) =
      l.map fun p => { score := -s0, original_index := p.1, text := p.2 } := by
  induction l with
  | nil => rfl
  | cons x xs ih =>
    simp only [List.filterMap_cons, hm, Option.map_some', List.map_cons] at ih ⊢
    exact congrArg _ ih

/-- Helper: when the matcher accepts every candidate against `query` with one
common score, the ranked sequence is the enumeration of the candidates in
insertion order (the stable sort leaves the equal-score, index-sorted list
unchanged). -/
theorem recompute_all_match (matcher : String → String → Option Int)
    (items : List String) (query : String) (s0 : Int)
    (hm : ∀ t, matcher t query = some s0) :
    recompute matcher items query =
      items.enum.map fun p => { score := -s0, original_index := p.1, text := p.2 } := by
  unfold recompute
  rw [filterMap_all_match matcher query s0 hm]
  apply List.mergeSort_of_sorted
  refine ((pairwise_fst_lt_enumFrom 0 items).map _ ?_)
  intro a b h
  rw [itemLE_iff]
  exact Or.inr ⟨rfl, Or.inl h⟩

/-- C7: with the empty query (which the matcher accepts for every candidate,
at one common score `s0`), the ranked sequence contains every candidate in
original insertion order. -/
theorem recompute_empty_query (matcher : String → String → Option Int)
    (items : List String) (s0 : Int) (hm : ∀ t, matcher t "" = some s0) :
    recompute matcher items "" =
      items.enum.map fun p => { score := -s0, original_index := p.1, text := p.2 } :=
  recompute_all_match matcher items "" s0 hm

/-- Evaluation rule for the constant matcher, used for concrete runs. -/
theorem recompute_const (s0 : Int) (items : List String) (query : String) :
    recompute (fun _ _ => some s0) items query =
      items.enum.map fun p => { score := -s0, original_index := p.1, text := p.2 } :=
  recompute_all_match _ items query s0 fun _ => rfl

/-- Witness for C7 at a concrete input: matcher that scores everything 0,
candidates `["b", "a"]`. -/
theorem recompute_empty_query_witness :
    recompute (fun _ _ => some 0) ["b", "a"] "" =
      [{ score := 0, original_index := 0, text := "b" },
       { score := 0, original_index := 1, text := "a" }] := by
  have h := recompute_empty_query (fun _ _ => some 0) ["b", "a"] 0 (fun _ => rfl)
  simpa using h

/-- The keep-indices-in-bounds and scrolling step run at the top of every loop
iteration (`src/ui.rs` lines 109–124; the same five statements at
`src/main.rs` lines 446–458).  In order:
`caret = caret.min(query.len())`;
`if !ranked.is_empty() { selected = selected.min(ranked.len() - 1) }`;
`offset = offset.min(ranked.len().saturating_sub(visible_rows))`;
`if selected >= offset + visible_rows { offset = selected - visible_rows + 1 }
 else if selected < offset { offset = selected }`.
Truncated `Nat` subtraction models both `saturating_sub` and the in-branch
`selected - visible_rows + 1`, whose branch condition rules out underflow.
Returns `(caret, selected, offset)`. -/
def reclamp (queryLen rankedLen visibleRows caret selected offset : Nat) :
    Nat × Nat × Nat :=
  let caret := min caret queryLen
  let selected := if rankedLen ≠ 0 then min selected (rankedLen - 1) else selected
  let offset := min offset (rankedLen - visibleRows)
  let offset :=
    if selected ≥ offset + visibleRows then selected - visibleRows + 1
    else if selected < offset then selected
    else offset
  (caret, selected, offset)

/-- Bounds established by one reclamp pass on a non-empty ranked sequence with
at least one visible row (shared helper). -/
theorem reclamp_bounds (queryLen rankedLen visibleRows caret selected offset : Nat)
    (hvis : 1 ≤ visibleRows) (hne : rankedLen ≠ 0) :
    (reclamp queryLen rankedLen visibleRows caret selected offset).2.1 < rankedLen ∧
    (reclamp queryLen rankedLen visibleRows caret selected offset).2.2 ≤
      (reclamp queryLen rankedLen visibleRows caret selected offset).2.1 ∧
    (reclamp queryLen rankedLen visibleRows caret selected offset).2.1 <
      (reclamp queryLen rankedLen visibleRows caret selected offset).2.2 + visibleRows ∧
    (reclamp queryLen rankedLen visibleRows caret selected offset).2.2 ≤
      rankedLen - visibleRows := by
  simp only [reclamp]
  split_ifs <;> simp_all <;> omega

/-- C3 (amended: the invariant needs at least one visible row; a viewport
reduced to `visible_rows = 0` breaks it): after one reclamp pass on a non-empty
ranked sequence, `selected < length(ranked)`,
`offset ≤ selected < offset + visible_rows`, and
`offset ≤ max(0, length(ranked) - visible_rows)` (the lower bounds `0 ≤ ...`
hold since all quantities are naturals). -/
theorem reclamp_invariants (queryLen rankedLen visibleRows caret selected offset : Nat)
    (hvis : 1 ≤ visibleRows) (hne : rankedLen ≠ 0) :
    (reclamp queryLen rankedLen visibleRows caret selected offset).2.1 < rankedLen ∧
    (reclamp queryLen rankedLen visibleRows caret selected offset).2.2 ≤
      (reclamp queryLen rankedLen visibleRows caret selected offset).2.1 ∧
    (reclamp queryLen rankedLen visibleRows caret selected offset).2.1 <
      (reclamp queryLen rankedLen visibleRows caret selected offset).2.2 + visibleRows ∧
    (reclamp queryLen rankedLen visibleRows caret selected offset).2.2 ≤
      rankedLen - visibleRows :=
  reclamp_bounds queryLen rankedLen visibleRows caret selected offset hvis hne

/-- Witness for C3 at a concrete state. -/
theorem reclamp_invariants_witness :
    (reclamp 4 3 2 9 7 5).2.1 < 3 ∧
    (reclamp 4 3 2 9 7 5).2.2 ≤ (reclamp 4 3 2 9 7 5).2.1 ∧
    (reclamp 4 3 2 9 7 5).2.1 < (reclamp 4 3 2 9 7 5).2.2 + 2 ∧
    (reclamp 4 3 2 9 7 5).2.2 ≤ 3 - 2 :=
  reclamp_invariants 4 3 2 9 7 5 (by decide) (by decide)

/-- C3 counterexample: with `visible_rows = 0` (reachable on a one-row
terminal, where `max_visible_items = usable_height - 1 = 0`) and a single
ranked entry, one reclamp pass yields `offset = 1 > selected = 0`, violating
`offset ≤ selected < offset + visible_rows`. -/
theorem reclamp_invariants_counterexample :
    ¬ ((reclamp 0 1 0 0 0 0).2.1 < 1 ∧
       (reclamp 0 1 0 0 0 0).2.2 ≤ (reclamp 0 1 0 0 0 0).2.1 ∧
       (reclamp 0 1 0 0 0 0).2.1 < (reclamp 0 1 0 0 0 0).2.2 + 0 ∧
       (reclamp 0 1 0 0 0 0).2.2 ≤ 1 - 0) := by decide

/-- C6 (amended: idempotence also needs at least one visible row; with
`visible_rows = 0` and a non-empty ranked sequence the offset oscillates):
running the five-step reclamp twice yields the same
`(caret, selected, offset)` as running it once. -/
theorem reclamp_idempotent (queryLen rankedLen visibleRows caret selected offset : Nat)
    (hvis : 1 ≤ visibleRows) :
    reclamp queryLen rankedLen visibleRows
        (reclamp queryLen rankedLen visibleRows caret selected offset).1
        (reclamp queryLen rankedLen visibleRows caret selected offset).2.1
        (reclamp queryLen rankedLen visibleRows caret selected offset).2.2 =
      reclamp queryLen rankedLen visibleRows caret selected offset := by
  obtain ⟨s, o, hs, ho⟩ :
      ∃ s o, (reclamp queryLen rankedLen visibleRows caret selected offset).2.1 = s ∧
        (reclamp queryLen rankedLen visibleRows caret selected offset).2.2 = o :=
    ⟨_, _, rfl, rfl⟩
  have hX : reclamp queryLen rankedLen visibleRows caret selected offset =
      (min caret queryLen, s, o) := by
    rw [← hs, ← ho]; rfl
  rw [hs, ho, hX]
  by_cases hr : rankedLen = 0
  · have hso : s = selected ∧ (selected ≥ visibleRows → o = selected - visibleRows + 1) ∧
        (selected < visibleRows → o = 0) := by
      rw [← hs, ← ho]
      simp only [reclamp, hr]
      split_ifs <;> refine ⟨by omega, fun h => by omega, fun h => by omega⟩
    obtain ⟨hs1, ho1, ho2⟩ := hso
    simp only [reclamp, hr, Prod.mk.injEq]
    rcases Nat.lt_or_ge selected visibleRows with h | h <;>
      split_ifs <;> refine ⟨by omega, by omega, ?_⟩ <;> simp_all <;> omega
  · obtain ⟨h1, h2, h3, h4⟩ :=
      reclamp_bounds queryLen rankedLen visibleRows caret selected offset hvis hr
    rw [hs] at h1 h2 h3
    rw [ho] at h2 h3 h4
    simp only [reclamp, Prod.mk.injEq]
    split_ifs <;> refine ⟨by omega, by omega, by omega⟩

/-- Witness for C6 at a concrete state. -/
theorem reclamp_idempotent_witness :
    reclamp 4 10 3 (reclamp 4 10 3 9 12 0).1 (reclamp 4 10 3 9 12 0).2.1
        (reclamp 4 10 3 9 12 0).2.2 =
      reclamp 4 10 3 9 12 0 :=
  reclamp_idempotent 4 10 3 9 12 0 (by decide)

/-- C6 counterexample: with `visible_rows = 0` and one ranked entry the first
pass moves the offset to `1`, the second pass moves it back to `0`: the two
passes disagree on `scroll_offset`. -/
theorem reclamp_idempotent_counterexample :
    reclamp 0 1 0 (reclamp 0 1 0 0 0 0).1 (reclamp 0 1 0 0 0 0).2.1
        (reclamp 0 1 0 0 0 0).2.2 ≠
      reclamp 0 1 0 0 0 0 := by decide

/-- The resolution path after the event loop (`src/ui.rs` lines 219–222):
`ensure!(selected_index < filtered_items.len())`, then
`self.items.remove(item_index)` where
`item_index = filtered_items[selected_index].original_index`.  `Vec::remove`
panics when the index is out of bounds, modelled as an error outcome.  The
candidate payload is identified with its display string (as
`insert_formatted` does).  Returns the outcome of the call paired with the
candidate list after the call. -/
def finalize (items : List String) (ranked : List FilteredItem) (selected : Nat) :
    Except String String × List String :=
  match ranked[selected]? with
  | none => (Except.error "ensure failed: selected_index < filtered_items.len()", items)
  | some item =>
    match items[item.original_index]? with
    | none => (Except.error "panicked: Vec::remove index out of bounds", items)
    | some v => (Except.ok v, items.eraseIdx item.original_index)

/-- C4: finalizing with an empty ranked sequence fails with a distinct error
(the `ensure!` contract violation) and returns the candidate set completely
unmodified. -/
theorem finalize_empty_ranked (items : List String) (selected : Nat) :
    finalize items [] selected =
      (Except.error "ensure failed: selected_index < filtered_items.len()", items) := by
  simp [finalize]

/-- The crossterm `KeyCode` constructors matched by the dispatch
(`src/ui.rs` lines 158–203). -/
inductive KeyCode where
  | enter | esc | backspace | delete | home | endKey | left | right | up | down
  | pageUp | pageDown
  | char (c : Char)
  | other
deriving DecidableEq, Repr

/-- Rust `char::is_ascii`: code point at most `0x7F`. -/
def isAsciiChar (c : Char) : Bool := c.toNat ≤ 0x7F

/-- Outcome of dispatching one key press. -/
inductive KeyOutcome where
  | step (query : List Char) (caret selected : Nat)
  | finish
  | cancel
  | panicOutcome (msg : String)
deriving DecidableEq, Repr

/-- One key-press dispatch from the event loop (`src/ui.rs` lines 158–203; the
same arms at `src/main.rs` lines 368–414 except for the PageUp/PageDown step,
modelled separately below).  Arms are in source order; `ctrl` is whether the
modifier set equals `KeyModifiers::CONTROL`.  The query holds only ASCII
characters (the insert arm guards on `ch.is_ascii()`), so byte indices and
character indices in the Rust `String` coincide and the query is a `List Char`.
`Nat` subtraction models `saturating_sub` and `checked_sub`.  The `Delete` arm
panics when `caret ≥ len` on a non-empty query: `filter_string.remove(caret)`
requires `caret < len` but the code only guards `!filter_string.is_empty()`.
`Backspace` removes at `caret - 1 < caret` and the insert arm inserts at
`caret`; both are called with `caret ≤ len` (reclamp runs before every
dispatch), where the total `eraseIdx`/`insertIdx` agree with Rust. -/
def applyKey (rankedLen visibleRows : Nat) (query : List Char) (caret selected : Nat)
    (code : KeyCode) (ctrl : Bool) : KeyOutcome :=
  match code, ctrl with
  | KeyCode.enter, _ =>
      if rankedLen ≠ 0 then KeyOutcome.finish else KeyOutcome.step query caret selected
  | KeyCode.char 'c', true => KeyOutcome.cancel
  | KeyCode.esc, _ => KeyOutcome.cancel
  | KeyCode.backspace, true => KeyOutcome.step [] 0 selected
  | KeyCode.char 'h', true => KeyOutcome.step [] 0 selected
  | KeyCode.backspace, false =>
      match caret with
      | 0 => KeyOutcome.step query 0 selected
      | c + 1 => KeyOutcome.step (query.eraseIdx c) c selected
  | KeyCode.delete, _ =>
      if query.isEmpty then KeyOutcome.step query caret selected
      else if caret < query.length then
        KeyOutcome.step (query.eraseIdx caret) caret selected
      else KeyOutcome.panicOutcome "String::remove byte index out of bounds"
  | KeyCode.home, _ => KeyOutcome.step query 0 selected
  | KeyCode.endKey, _ => KeyOutcome.step query query.length selected
  | KeyCode.left, _ => KeyOutcome.step query (caret - 1) selected
  | KeyCode.right, _ => KeyOutcome.step query (caret + 1) selected
  | KeyCode.up, _ => KeyOutcome.step query caret (selected - 1)
  | KeyCode.down, _ => KeyOutcome.step query caret (selected + 1)
  | KeyCode.pageUp, true => KeyOutcome.step query caret 0
  | KeyCode.pageDown, true => KeyOutcome.step query caret rankedLen
  | KeyCode.pageUp, false => KeyOutcome.step query caret (selected - visibleRows)
  | KeyCode.pageDown, false => KeyOutcome.step query caret (selected + visibleRows)
  | KeyCode.char c, _ =>
      if isAsciiChar c then KeyOutcome.step (query.insertIdx caret c) (caret + 1) selected
      else KeyOutcome.step query caret selected
  | _, _ => KeyOutcome.step query caret selected

/-- C5 (code bug): pressing Delete with the caret at the end of a non-empty
query (query `"a"`, caret `1` — a state reachable by typing `a`) panics:
`String::remove` is called with an index equal to the length, because the arm
only guards on the string being non-empty instead of on `caret < len`. -/
theorem delete_at_end_panics :
    applyKey 1 1 ['a'] 1 0 KeyCode.delete false =
      KeyOutcome.panicOutcome "String::remove byte index out of bounds" := rfl

/-- Iterated plain Backspace dispatch, tracking `(query, caret)`. -/
def backspaceIter : Nat → List Char × Nat → List Char × Nat
  | 0, p => p
  | n + 1, p =>
      match applyKey 0 0 p.1 p.2 0 KeyCode.backspace false with
      | KeyOutcome.step q c _ => backspaceIter n (q, c)
      | _ => p

/-- Dropping the first `c` elements after erasing index `c` is dropping
`c + 1` elements of the original list. -/
theorem drop_eraseIdx_self (q : List Char) (c : Nat) (hc : c < q.length) :
    (q.eraseIdx c).drop c = q.drop (c + 1) := by
  rw [List.eraseIdx_eq_take_drop_succ]
  exact List.drop_left' (by simpa using Nat.min_eq_left hc.le)

/-- Helper: with the caret at `c ≤ len`, `c` Backspace presses delete exactly
the prefix before the caret. -/
theorem backspaceIter_drop :
    ∀ (c : Nat) (q : List Char), c ≤ q.length → backspaceIter c (q, c) = (q.drop c, 0)
  | 0, q, _ => by simp [backspaceIter]
  | k + 1, q, h => by
    have hstep : backspaceIter (k + 1) (q, k + 1) = backspaceIter k (q.eraseIdx k, k) := rfl
    rw [hstep, backspaceIter_drop k (q.eraseIdx k)
      (by rw [List.length_eraseIdx_of_lt (by omega)]; omega)]
    rw [drop_eraseIdx_self q k (by omega)]

/-- C8 (amended: plain Backspace only deletes *before* the caret, so from a
non-empty query it reaches the empty query only when the caret starts at the
end; with the caret at position `c ≤ len`, `c` Backspace presses reach
`(query.drop c, caret = 0)`; in particular `c = len` reaches `("", 0)`.
Ctrl-Backspace reaches `("", 0)` in one step from any state). -/
theorem backspace_reaches_suffix (q : List Char) (c : Nat) (h : c ≤ q.length) :
    backspaceIter c (q, c) = (q.drop c, 0) ∧
    (c = q.length → backspaceIter c (q, c) = ([], 0)) ∧
    ∀ (rankedLen visibleRows : Nat) (q' : List Char) (c' s : Nat),
      applyKey rankedLen visibleRows q' c' s KeyCode.backspace true =
        KeyOutcome.step [] 0 s := by
  refine ⟨backspaceIter_drop c q h, fun hlen => ?_, fun _ _ _ _ _ => rfl⟩
  rw [backspaceIter_drop c q h, hlen, List.drop_length]

/-- Witness for C8 at the concrete query `"ab"` with the caret at the end. -/
theorem backspace_reaches_suffix_witness :
    backspaceIter 2 (['a', 'b'], 2) = ([], 0) :=
  (backspace_reaches_suffix ['a', 'b'] 2 (by decide)).2.1 rfl

/-- C8 counterexample: from query `"a"` with the caret at position 0 (a
non-empty query and a legal caret position), no number of Backspace presses
ever reaches the empty query — Backspace at caret 0 is a no-op. -/
theorem backspace_stuck_counterexample :
    ¬ ∃ n, backspaceIter n (['a'], 0) = ([], 0) := by
  rintro ⟨n, hn⟩
  have h : ∀ m, backspaceIter m (['a'], 0) = (['a'], 0) := by
    intro m
    induction m with
    | zero => rfl
    | succ k ih => exact ih
  rw [h n] at hn
  simp at hn

/-- The PageDown arm of `list_prompt` (`src/main.rs` line 406):
`selected_index += terminal_height as usize - 1`. -/
def promptPageDown (selected terminalHeight : Nat) : Nat :=
  selected + (terminalHeight - 1)

/-- The PageUp arm of `list_prompt` (`src/main.rs` line 405):
`selected_index.saturating_sub(terminal_height as usize - 1)`. -/
def promptPageUp (selected terminalHeight : Nat) : Nat :=
  selected - (terminalHeight - 1)

/-- Visible row count of `list_prompt` (`src/main.rs` lines 281–282):
`desired_height = terminal_height.min(items.len() + 1)` and
`max_visible_items = desired_height - 1`. -/
def promptMaxVisible (numItems terminalHeight : Nat) : Nat :=
  min terminalHeight (numItems + 1) - 1

/-- C9 counterexample: in `list_prompt` with 3 candidates on a 10-row terminal
the viewport shows 3 list rows, but PageDown advances the selection by
`terminal_height - 1 = 9`, not by `visible_rows = 3`. -/
theorem prompt_pageDown_counterexample :
    promptPageDown 0 10 ≠ 0 + promptMaxVisible 3 10 := by decide

/-- C9 (amended): in `FilterableList::run` (`src/ui.rs` lines 194–195)
PageDown adds exactly `visible_rows` to `selected_index` and PageUp subtracts
`visible_rows` saturating at 0; in `list_prompt` (`src/main.rs` lines
405–406) the step is `terminal_height - 1` instead, which coincides with the
visible row count only when the terminal is no taller than
`items + 1` rows. -/
theorem pageKeys_step (rankedLen visibleRows : Nat) (q : List Char)
    (caret selected numItems terminalHeight : Nat)
    (h : terminalHeight ≤ numItems + 1) :
    applyKey rankedLen visibleRows q caret selected KeyCode.pageDown false =
      KeyOutcome.step q caret (selected + visibleRows) ∧
    applyKey rankedLen visibleRows q caret selected KeyCode.pageUp false =
      KeyOutcome.step q caret (selected - visibleRows) ∧
    promptPageDown selected terminalHeight =
      selected + promptMaxVisible numItems terminalHeight ∧
    promptPageUp selected terminalHeight =
      selected - promptMaxVisible numItems terminalHeight := by
  refine ⟨rfl, rfl, ?_, ?_⟩ <;>
    simp only [promptPageDown, promptPageUp, promptMaxVisible] <;> omega

/-- Witness for C9 at a concrete state. -/
theorem pageKeys_step_witness :
    applyKey 5 2 [] 0 3 KeyCode.pageDown false = KeyOutcome.step [] 0 (3 + 2) ∧
    applyKey 5 2 [] 0 3 KeyCode.pageUp false = KeyOutcome.step [] 0 (3 - 2) ∧
    promptPageDown 3 10 = 3 + promptMaxVisible 9 10 ∧
    promptPageUp 3 10 = 3 - promptMaxVisible 9 10 :=
  pageKeys_step 5 2 [] 0 3 9 10 (by decide)

/-- One terminal event delivered by `event::read()` in the inner events
loop (`src/ui.rs` lines 156–216).  `other` stands for any delivered event that
is neither a key *press* nor a resize (key releases/repeats, and the final
`_ => {}` arm), which the loop ignores and re-blocks on.  `readFailure` stands
for `event::read()` returning `Err`, which `?` propagates. -/
inductive Event where
  | key (code : KeyCode) (ctrl : Bool)
  | resize (w h : Nat)
  | other
  | readFailure
deriving DecidableEq, Repr

/-- Terminal side effects of `run()`, in order of emission.
`startViewport` = `InlineViewport::start` (reserve rows, disable line wrap);
`draw` = one synchronized frame; `enableRaw`/`disableRaw` =
`enable_raw_mode`/`disable_raw_mode` (the `start_raw_mode` guard,
`src/ui.rs` lines 374–379); `teardownViewport` = the `Drop` of `InlineViewport`
(clear reserved region, reset colors, re-enable line wrap,
`src/ui.rs` lines 357–367). -/
inductive TermAction where
  | startViewport
  | draw
  | enableRaw
  | readEvent
  | disableRaw
  | teardownViewport
deriving DecidableEq, Repr

/-- How a modelled run ends.  `err` covers every `anyhow` error return (the
`ensure!` guards, `bail!("Cancelled")`, propagated read failures), `panicked`
a Rust panic (the `Delete` bug), and `starved` means the scripted event list
ran out while the real program would still be blocking on `event::read()`. -/
inductive RunResult where
  | resolved (value : String) (remaining : List String)
  | err (msg : String)
  | panicked (msg : String)
  | starved
deriving DecidableEq, Repr

/-- The mutable state of `FilterableList::run` (`src/ui.rs` lines 58–84):
candidate displays (payloads identified with their display strings, as
`insert_formatted` builds them), query and caret, selection and scroll offset,
cached terminal size, and the current `filtered_items`. -/
structure LoopSt where
  items : List String
  query : List Char
  caret : Nat
  selected : Nat
  offset : Nat
  termW : Nat
  termH : Nat
  ranked : List FilteredItem
deriving Repr

/-- Number of occurrences of one terminal action in a trace. -/
def countAction (a : TermAction) : List TermAction → Nat
  | [] => 0
  | x :: xs => (if x = a then 1 else 0) + countAction a xs

mutual

/-- The inner events loop (`src/ui.rs` lines 156–216) while raw mode is
active: read events, ignoring everything that is neither a key press nor a
resize; dispatch the first key press (or apply the resize) and break back to
the outer loop.  The raw-mode guard `_guard` is scoped to the iteration body
of the outer loop, so leaving the iteration — by breaking out of either loop,
by `bail!`, by `?`-propagation or by panic unwind — emits `disableRaw`; the
`InlineViewport` drop (`teardownViewport`) runs when `run` itself is left. -/
def runEvents (matcher : String → String → Option Int) (st : LoopSt)
    (maxVisible : Nat) : List Event → RunResult × List TermAction
  | [] => (RunResult.starved, [])
  | Event.readFailure :: _ =>
      (RunResult.err "event read failed",
        [TermAction.readEvent, TermAction.disableRaw, TermAction.teardownViewport])
  | Event.other :: rest =>
      let r := runEvents matcher st maxVisible rest
      (r.1, TermAction.readEvent :: r.2)
  | Event.resize w h :: rest =>
      let r := runIter matcher { st with termW := w, termH := h } rest
      (r.1, TermAction.readEvent :: TermAction.disableRaw :: r.2)
  | Event.key code ctrl :: rest =>
      match applyKey st.ranked.length maxVisible st.query st.caret st.selected code ctrl with
      | KeyOutcome.finish =>
          (match finalize st.items st.ranked st.selected with
            | (Except.ok v, remaining) => RunResult.resolved v remaining
            | (Except.error msg, _) => RunResult.err msg,
          [TermAction.readEvent, TermAction.disableRaw, TermAction.teardownViewport])
      | KeyOutcome.cancel =>
          (RunResult.err "Cancelled",
            [TermAction.readEvent, TermAction.disableRaw, TermAction.teardownViewport])
      | KeyOutcome.panicOutcome msg =>
          (RunResult.panicked msg,
            [TermAction.readEvent, TermAction.disableRaw, TermAction.teardownViewport])
      | KeyOutcome.step q c s =>
          let r := runIter matcher { st with query := q, caret := c, selected := s } rest
          (r.1, TermAction.readEvent :: TermAction.disableRaw :: r.2)
termination_by events => (events.length, 0)

/-- One iteration of the outer main loop (`src/ui.rs` lines 85–217):
recompute `max_visible_items` from the live terminal height
(`usable_height() - 1`, with `usable_height = min(termH, items.len() + 1)`),
refilter (the loop sets `needs_refilter = true` unconditionally at line 88, so
this happens every iteration), reclamp, draw one frame, enable raw mode, and
enter the inner read loop. -/
def runIter (matcher : String → String → Option Int) (st : LoopSt)
    (events : List Event) : RunResult × List TermAction :=
  let maxVisible := min st.termH (st.items.length + 1) - 1
  let ranked := recompute matcher st.items (String.mk st.query)
  let r := reclamp st.query.length ranked.length maxVisible st.caret st.selected st.offset
  let res := runEvents matcher
    { st with ranked := ranked, caret := r.1, selected := r.2.1, offset := r.2.2 }
    maxVisible events
  (res.1, TermAction.draw :: TermAction.enableRaw :: res.2)
termination_by (events.length, 1)

end

/-- Function `FilterableList::run` (`src/ui.rs` lines 58–223) as a trace semantics over
a scripted event list: `ensure!(!self.items.is_empty())` first, then acquire
the viewport, initialize all loop state, and run the loop.  The initial
`filtered_items` vector (lines 77–83, all scores `0`) is built before the
first iteration, which immediately recomputes it. -/
def runPicker (matcher : String → String → Option Int) (items : List String)
    (w h : Nat) (events : List Event) : RunResult × List TermAction :=
  if items.isEmpty then
    (RunResult.err "ensure failed: !self.items.is_empty()", [])
  else
    let r := runIter matcher
      { items := items, query := [], caret := 0, selected := 0, offset := 0,
        termW := w, termH := h,
        ranked := items.enum.map fun p => { score := 0, original_index := p.1, text := p.2 } }
      events
    (r.1, TermAction.startViewport :: r.2)

/-- Raw-mode / teardown accounting for the run loop, by induction on the
scripted events.  Whenever the run exits (the result is not `starved`): the
trace of the inner read loop tears the viewport down exactly once and emits one
more `disableRaw` than `enableRaw` (closing the raw-mode span its iteration
opened), and the trace of a full iteration tears down exactly once with balanced
enable/disable pairs. -/
theorem run_counts (matcher : String → String → Option Int) :
    ∀ (n : Nat) (events : List Event), events.length ≤ n →
      (∀ (st : LoopSt) (mv : Nat),
          (runEvents matcher st mv events).1 ≠ RunResult.starved →
            countAction TermAction.teardownViewport (runEvents matcher st mv events).2 = 1 ∧
            countAction TermAction.disableRaw (runEvents matcher st mv events).2 =
              countAction TermAction.enableRaw (runEvents matcher st mv events).2 + 1) ∧
      (∀ st : LoopSt,
          (runIter matcher st events).1 ≠ RunResult.starved →
            countAction TermAction.teardownViewport (runIter matcher st events).2 = 1 ∧
            countAction TermAction.disableRaw (runIter matcher st events).2 =
              countAction TermAction.enableRaw (runIter matcher st events).2) := by
  intro n
  induction n with
  | zero =>
    intro events hlen
    obtain rfl : events = [] := List.length_eq_zero.mp (Nat.le_zero.mp hlen)
    constructor
    · intro st mv hst
      simp [runEvents] at hst
    · intro st hst
      simp [runIter, runEvents] at hst
  | succ k ih =>
    intro events hlen
    have hev : ∀ (st : LoopSt) (mv : Nat),
        (runEvents matcher st mv events).1 ≠ RunResult.starved →
          countAction TermAction.teardownViewport (runEvents matcher st mv events).2 = 1 ∧
          countAction TermAction.disableRaw (runEvents matcher st mv events).2 =
            countAction TermAction.enableRaw (runEvents matcher st mv events).2 + 1 := by
      cases events with
      | nil =>
        intro st mv hst
        simp [runEvents] at hst
      | cons e rest =>
        have hrest : rest.length ≤ k := by
          simp only [List.length_cons] at hlen
          omega
        intro st mv hst
        cases e with
        | readFailure => simp [runEvents, countAction]
        | other =>
          have h := (ih rest hrest).1 st mv
          simp only [runEvents] at hst ⊢
          have hc := h hst
          simp only [countAction]
          simp only [show (TermAction.readEvent = TermAction.teardownViewport) = False by simp,
            show (TermAction.readEvent = TermAction.disableRaw) = False by simp,
            show (TermAction.readEvent = TermAction.enableRaw) = False by simp,
            if_false]
          omega
        | resize wNew hNew =>
          have h := (ih rest hrest).2 { st with termW := wNew, termH := hNew }
          simp only [runEvents] at hst ⊢
          have hc := h hst
          simp only [countAction]
          simp only [show (TermAction.readEvent = TermAction.teardownViewport) = False by simp,
            show (TermAction.readEvent = TermAction.disableRaw) = False by simp,
            show (TermAction.readEvent = TermAction.enableRaw) = False by simp,
            show (TermAction.disableRaw = TermAction.teardownViewport) = False by simp,
            show (TermAction.disableRaw = TermAction.disableRaw) = True by simp,
            show (TermAction.disableRaw = TermAction.enableRaw) = False by simp,
            if_false, if_true]
          omega
        | key code ctrl =>
          cases happ : applyKey st.ranked.length mv st.query st.caret st.selected code ctrl with
          | step q c s =>
            have h := (ih rest hrest).2 { st with query := q, caret := c, selected := s }
            simp only [runEvents, happ] at hst ⊢
            have hc := h hst
            simp only [countAction]
            simp only [show (TermAction.readEvent = TermAction.teardownViewport) = False by simp,
              show (TermAction.readEvent = TermAction.disableRaw) = False by simp,
              show (TermAction.readEvent = TermAction.enableRaw) = False by simp,
              show (TermAction.disableRaw = TermAction.teardownViewport) = False by simp,
              show (TermAction.disableRaw = TermAction.disableRaw) = True by simp,
              show (TermAction.disableRaw = TermAction.enableRaw) = False by simp,
              if_false, if_true]
            omega
          | finish => simp [runEvents, happ, countAction]
          | cancel => simp [runEvents, happ, countAction]
          | panicOutcome msg => simp [runEvents, happ, countAction]
    refine ⟨hev, ?_⟩
    intro st hst
    simp only [runIter] at hst ⊢
    have hc := hev _ _ hst
    simp only [countAction]
    simp only [show (TermAction.draw = TermAction.teardownViewport) = False by simp,
      show (TermAction.draw = TermAction.disableRaw) = False by simp,
      show (TermAction.draw = TermAction.enableRaw) = False by simp,
      show (TermAction.enableRaw = TermAction.teardownViewport) = False by simp,
      show (TermAction.enableRaw = TermAction.disableRaw) = False by simp,
      show (TermAction.enableRaw = TermAction.enableRaw) = True by simp,
      if_false, if_true]
    omega

/-- C1 (amended: the claim is true of the viewport teardown but not of raw
mode; once the viewport is acquired — non-empty candidate set — every exit of
`run()` (resolution, cancellation, propagated read error, and even the Delete
panic) performs the viewport teardown (clear reserved region, reset colors,
re-enable line wrap) exactly once, and raw mode is disabled exactly as often
as it is enabled; but raw mode is enabled and disabled once per loop
iteration (`start_raw_mode` is called inside the loop body), not once per
run). -/
theorem run_teardown_once (matcher : String → String → Option Int)
    (items : List String) (w h : Nat) (events : List Event)
    (hne : items ≠ [])
    (hexit : (runPicker matcher items w h events).1 ≠ RunResult.starved) :
    countAction TermAction.teardownViewport (runPicker matcher items w h events).2 = 1 ∧
    countAction TermAction.disableRaw (runPicker matcher items w h events).2 =
      countAction TermAction.enableRaw (runPicker matcher items w h events).2 := by
  have hne' : items.isEmpty = false := by
    cases items with
    | nil => exact absurd rfl hne
    | cons a l => rfl
  simp only [runPicker, hne', Bool.false_eq_true, if_false] at hexit ⊢
  have hc := (run_counts matcher events.length events le_rfl).2 _ hexit
  simp only [countAction]
  simp only [show (TermAction.startViewport = TermAction.teardownViewport) = False by simp,
    show (TermAction.startViewport = TermAction.disableRaw) = False by simp,
    show (TermAction.startViewport = TermAction.enableRaw) = False by simp, if_false]
  omega

/-- Concrete evaluation of a one-iteration resolved run (constant matcher,
single candidate, immediate Enter). -/
theorem runPicker_one_iteration_eval :
    runPicker (fun _ _ => some 0) ["a"] 80 24 [Event.key KeyCode.enter false] =
      (RunResult.resolved "a" [],
       [TermAction.startViewport, TermAction.draw, TermAction.enableRaw,
        TermAction.readEvent, TermAction.disableRaw, TermAction.teardownViewport]) := by
  simp [runPicker, runIter, runEvents, recompute_const, reclamp, applyKey, finalize]

/-- Witness for C1: the one-iteration resolved run tears down once with
balanced raw-mode toggles. -/
theorem run_teardown_once_witness :
    countAction TermAction.teardownViewport
        (runPicker (fun _ _ => some 0) ["a"] 80 24 [Event.key KeyCode.enter false]).2 = 1 ∧
    countAction TermAction.disableRaw
        (runPicker (fun _ _ => some 0) ["a"] 80 24 [Event.key KeyCode.enter false]).2 =
      countAction TermAction.enableRaw
        (runPicker (fun _ _ => some 0) ["a"] 80 24 [Event.key KeyCode.enter false]).2 :=
  run_teardown_once (fun _ _ => some 0) ["a"] 80 24 [Event.key KeyCode.enter false]
    (by simp) (by rw [runPicker_one_iteration_eval]; simp)

/-- Concrete evaluation of a two-iteration resolved run (type `x`, then
Enter). -/
theorem runPicker_two_iterations_eval :
    runPicker (fun _ _ => some 0) ["a", "b"] 80 24
        [Event.key (KeyCode.char 'x') false, Event.key KeyCode.enter false] =
      (RunResult.resolved "a" ["b"],
       [TermAction.startViewport, TermAction.draw, TermAction.enableRaw,
        TermAction.readEvent, TermAction.disableRaw,
        TermAction.draw, TermAction.enableRaw,
        TermAction.readEvent, TermAction.disableRaw, TermAction.teardownViewport]) := by
  simp [runPicker, runIter, runEvents, recompute_const, reclamp, applyKey, finalize,
    isAsciiChar]

/-- C1 counterexample: a normally-resolved run that takes two loop iterations
(one keystroke, then Enter) disables raw mode twice, not exactly once —
`start_raw_mode` is re-entered for every blocking read, so "raw mode is
disabled exactly once per run, never more" fails. -/
theorem run_rawmode_not_once :
    countAction TermAction.disableRaw
        (runPicker (fun _ _ => some 0) ["a", "b"] 80 24
          [Event.key (KeyCode.char 'x') false, Event.key KeyCode.enter false]).2 ≠ 1 := by
  rw [runPicker_two_iterations_eval]
  simp [countAction]

/-- C10: invoking the picker on an empty candidate set fails immediately with
an error (the `ensure!` at the top of `run()`), before the viewport is
acquired and before any terminal state changes: the terminal-action trace is
empty and no event is ever read. -/
theorem run_empty_items (matcher : String → String → Option Int) (w h : Nat)
    (events : List Event) :
    runPicker matcher [] w h events =
      (RunResult.err "ensure failed: !self.items.is_empty()", []) := rfl

end GitUtils
